import Mathlib

/-!
Verification development for the process-coordination subsystem of the
atomic-agents-tdd repository: the PID lock manager, the pipeline controller
exit paths, the retry-with-backoff wrapper, the marker-extraction state
store, the rollback tool, the agent-path validation, and the port allocator.
Each definition is a shallow embedding of the corresponding Python function;
external effects (process liveness probes, port bind tests, random draws,
subprocess results, timestamps) are passed in as explicit parameters.
-/

namespace Spec2Proof

/-! ### Python string primitives

Helpers mirroring the exact Python string operations used by the source:
`str.strip`, `str.lower`, substring membership (`in`), `int(...)` parsing,
`str.startswith` / `str.endswith`, and slicing.  All operate on `List Char`
so that every definition is structurally recursive and kernel-evaluable.
-/

/-- Characters matched by Python `\s` and stripped by `str.strip()` (ASCII
fragment; all strings handled by the source are ASCII). -/
def isPySpace (c : Char) : Bool :=
  c == ' ' || c == '\t' || c == '\n' || c == '\r' || c == '\x0b' || c == '\x0c'

/-- Python `str.strip()` on a character list. -/
def pyStripL (cs : List Char) : List Char :=
  ((cs.dropWhile isPySpace).reverse.dropWhile isPySpace).reverse

/-- Python `str.strip()`. -/
def pyStrip (s : String) : String :=
  ⟨pyStripL s.data⟩

/-- ASCII lowering of one character, as Python `str.lower()` does on ASCII. -/
def lowerChar (c : Char) : Char :=
  if c.toNat ≥ 65 && c.toNat ≤ 90 then Char.ofNat (c.toNat + 32) else c

/-- Python `str.lower()` on a character list (ASCII fragment). -/
def lowerL (cs : List Char) : List Char :=
  cs.map lowerChar

/-- Does `cs` start with `pre`?  Mirrors Python `str.startswith`. -/
def startsWithL (pre cs : List Char) : Bool :=
  match pre, cs with
  | [], _ => true
  | _ :: _, [] => false
  | a :: as, b :: bs => a == b && startsWithL as bs

/-- Does `needle` occur as a contiguous substring of `hay`?  Mirrors the
Python `in` operator on strings. -/
def containsSub (needle : List Char) : List Char → Bool
  | [] => needle.isEmpty
  | c :: rest => startsWithL needle (c :: rest) || containsSub needle rest

/-- Decimal digit value of an ASCII digit character. -/
def digitVal (c : Char) : Nat :=
  c.toNat - 48

/-- Tail of Python `int` digit parsing: digits with single underscores
allowed between digits. -/
def parseDigitsTail : List Char → Nat → Option Nat
  | [], acc => some acc
  | '_' :: rest, acc =>
    match rest with
    | c :: rest2 =>
      if c.isDigit then parseDigitsTail rest2 (acc * 10 + digitVal c) else none
    | [] => none
  | c :: rest, acc =>
    if c.isDigit then parseDigitsTail rest (acc * 10 + digitVal c) else none

/-- Nonempty decimal digit sequence (with Python underscore grouping);
the first character must be a digit. -/
def parseDigits : List Char → Option Nat
  | c :: rest => if c.isDigit then parseDigitsTail rest (digitVal c) else none
  | [] => none

/-- Python `int(s)` on an already-stripped string: optional sign followed by
decimal digits (ASCII fragment of CPython semantics); `none` models a raised
`ValueError`. -/
def pyInt (s : String) : Option Int :=
  match s.data with
  | '+' :: rest => (parseDigits rest).map Int.ofNat
  | '-' :: rest => (parseDigits rest).map (fun n => -(n : Int))
  | cs => (parseDigits cs).map Int.ofNat

/-! ### Lock manager (`run.py`, `AgentFirstPipeline._acquire_lock` /
`_release_lock`, lines 82-114)

The lock file is modelled as `Option String` (`none` = file absent).  The
liveness probe `os.kill(old_pid, 0)` is modelled by the predicate
`alive : Int → Bool` (`true` = the probe raises no `OSError`); the writing
process id is `myPid`.
-/

/-- Shallow embedding of `AgentFirstPipeline._acquire_lock`.  Returns the
boolean result together with the final content of the lock file.  The
branches follow the source exactly: an existing file whose stripped content
parses as the id of a live process means busy (file untouched); a dead
process id or unparsable content is removed; in every non-busy case the
caller writes `str(os.getpid())` and succeeds. -/
def acquire_lock (alive : Int → Bool) (myPid : Int) (fs : Option String) :
    Bool × Option String :=
  match fs with
  | some raw =>
    let content := pyStrip raw
    if content ≠ "" then
      match pyInt content with
      | some old_pid =>
        if alive old_pid then
          (false, some raw)
        else
          (true, some (toString myPid))
      | none =>
        (true, some (toString myPid))
    else
      (true, some (toString myPid))
  | none => (true, some (toString myPid))

/-- Shallow embedding of `AgentFirstPipeline._release_lock`: unlink with
`missing_ok=True`, all exceptions swallowed. -/
def release_lock (_fs : Option String) : Option String :=
  none

/-- C1: `_acquire_lock` returns failure exactly when the lock file exists and
its stripped content parses (Python `int`) as the id of a process the
liveness probe reports alive; on failure the file is untouched, and in every
other case the file ends up containing exactly the caller id and the call
succeeds. -/
theorem acquire_lock_spec (alive : Int → Bool) (myPid : Int)
    (fs : Option String) :
    ((acquire_lock alive myPid fs).1 = false ↔
      ∃ raw pid, fs = some raw ∧ pyInt (pyStrip raw) = some pid ∧
        alive pid = true) ∧
    ((acquire_lock alive myPid fs).1 = false →
      (acquire_lock alive myPid fs).2 = fs) ∧
    ((acquire_lock alive myPid fs).1 = true →
      (acquire_lock alive myPid fs).2 = some (toString myPid)) := by
  match fs with
  | none =>
    refine ⟨?_, ?_, ?_⟩
    · simp [acquire_lock]
    · simp [acquire_lock]
    · simp [acquire_lock]
  | some raw =>
    by_cases hne : pyStrip raw = ""
    · refine ⟨?_, ?_, ?_⟩
      · simp only [acquire_lock, hne, ne_eq, not_true_eq_false, if_false]
        constructor
        · intro h
          exact absurd h (by simp)
        · rintro ⟨raw2, pid, hraw, hpid, _⟩
          cases hraw
          rw [hne] at hpid
          simp [pyInt, parseDigits] at hpid
      · intro h
        simp [acquire_lock, hne] at h
      · intro _
        simp [acquire_lock, hne]
    · match hp : pyInt (pyStrip raw) with
      | some old_pid =>
        by_cases ha : alive old_pid
        · have hval : acquire_lock alive myPid (some raw) =
              (false, some raw) := by
            simp [acquire_lock, hne, hp, ha]
          refine ⟨?_, ?_, ?_⟩
          · rw [hval]
            exact ⟨fun _ => ⟨raw, old_pid, rfl, hp, by simpa using ha⟩,
              fun _ => rfl⟩
          · rw [hval]
            intro _
            rfl
          · rw [hval]
            intro h
            exact absurd h (by simp)
        · have hval : acquire_lock alive myPid (some raw) =
              (true, some (toString myPid)) := by
            simp [acquire_lock, hne, hp, ha]
          refine ⟨?_, ?_, ?_⟩
          · rw [hval]
            constructor
            · intro h
              exact absurd h (by simp)
            · rintro ⟨raw2, pid, hraw, hpid, hlive⟩
              cases hraw
              rw [hp] at hpid
              cases hpid
              exact absurd hlive (by simpa using ha)
          · rw [hval]
            intro h
            exact absurd h (by simp)
          · rw [hval]
            intro _
            rfl
      | none =>
        have hval : acquire_lock alive myPid (some raw) =
            (true, some (toString myPid)) := by
          simp [acquire_lock, hne, hp]
        refine ⟨?_, ?_, ?_⟩
        · rw [hval]
          constructor
          · intro h
            exact absurd h (by simp)
          · rintro ⟨raw2, pid, hraw, hpid, _⟩
            cases hraw
            rw [hp] at hpid
            cases hpid
        · rw [hval]
          intro h
          exact absurd h (by simp)
        · rw [hval]
          intro _
          rfl

/-- Witness for C1 at a concrete input: a lock file containing the id of a
live process (42) makes `_acquire_lock` fail and leaves the file unchanged. -/
theorem acquire_lock_spec_witness :
    (acquire_lock (fun p => p == 42) 7 (some ("42"))).1 = false ∧
    (acquire_lock (fun p => p == 42) 7 (some ("42"))).2 = some ("42") := by
  have h := acquire_lock_spec (fun p => p == 42) 7 (some ("42"))
  have h1 : (acquire_lock (fun p => p == 42) 7 (some ("42"))).1 = false :=
    h.1.mpr ⟨"42", 42, rfl, by decide, by decide⟩
  exact ⟨h1, h.2.1 h1⟩

/-! ### Pipeline controller exit paths (`run.py`, `AgentFirstPipeline.run`
lines 567-695 and `AgentFirstPipeline.run_continuation` lines 697-733)

Both entry points acquire the lock first and exit via `sys.exit(1)` when it
is busy.  In `run`, the statements between the successful acquisition and
the `try` block (persisting the task into state, reading the orchestrator
template from disk, building options; lines 588-655) can raise; the
`try ... finally` covers only the orchestrator session and the background
joins (lines 657-682), whose failure or interrupt is modelled by
`bodyOk = false`.  In `run_continuation` there is no `try ... finally` at
all: the lock is released only after `orch.run_agent` returns normally.
The booleans `preOk`, `bodyOk` and `agentOk` say whether each fallible
region completes without raising (an external interrupt is one way it can
raise). -/

/-- Exit paths of `AgentFirstPipeline.run`. -/
inductive RunExit where
  | busy
  | preTryRaise
  | bodyRaise
  | completed
  deriving DecidableEq, Repr

/-- Exit paths of `AgentFirstPipeline.run_continuation`. -/
inductive ContExit where
  | busy
  | agentRaise
  | completed
  deriving DecidableEq, Repr

/-- Shallow embedding of the lock lifecycle of `AgentFirstPipeline.run`:
acquire, then the fallible pre-try region, then the `try ... finally`
around the orchestrator session.  Returns the exit kind and the final
content of the lock file. -/
def run_model (alive : Int → Bool) (myPid : Int) (preOk bodyOk : Bool)
    (fs : Option String) : RunExit × Option String :=
  let acq := acquire_lock alive myPid fs
  if acq.1 = false then
    (RunExit.busy, acq.2)
  else if preOk = false then
    (RunExit.preTryRaise, acq.2)
  else if bodyOk = false then
    (RunExit.bodyRaise, release_lock acq.2)
  else
    (RunExit.completed, release_lock acq.2)

/-- Shallow embedding of the lock lifecycle of
`AgentFirstPipeline.run_continuation`: acquire, run the continuation agent
(no `try ... finally`), release only after it returns normally. -/
def run_continuation_model (alive : Int → Bool) (myPid : Int)
    (agentOk : Bool) (fs : Option String) : ContExit × Option String :=
  let acq := acquire_lock alive myPid fs
  if acq.1 = false then
    (ContExit.busy, acq.2)
  else if agentOk = false then
    (ContExit.agentRaise, acq.2)
  else
    (ContExit.completed, release_lock acq.2)

/-- C2 counterexample: the claim that every entry point releases the lock on
every exit path is false.  Starting with no lock file, process 7 acquires
the lock; if the continuation agent raises, `run_continuation` exits with
the lock file still containing the holder id, and if `run` raises between
acquisition and its `try` block (for example the orchestrator template
read), it also exits with the lock file still present. -/
theorem lock_release_on_all_paths_cex :
    (acquire_lock (fun _ => false) 7 none).1 = true ∧
    run_continuation_model (fun _ => false) 7 false none =
      (ContExit.agentRaise, some (toString (7 : Int))) ∧
    (run_continuation_model (fun _ => false) 7 false none).2 ≠ none ∧
    run_model (fun _ => false) 7 false true none =
      (RunExit.preTryRaise, some (toString (7 : Int))) ∧
    (run_model (fun _ => false) 7 false true none).2 ≠ none := by
  refine ⟨rfl, rfl, ?_, rfl, ?_⟩
  · intro h
    simp [run_continuation_model, acquire_lock] at h
  · intro h
    simp [run_model, acquire_lock] at h

/-- C2 amended: once the lock is acquired, `run` releases it on every exit
of its `try` block (normal completion, operation failure or interrupt), but
a failure between acquisition and the `try` block leaves the lock held;
`run_continuation` releases it only on normal completion of the
continuation agent. -/
theorem lock_release_amended (alive : Int → Bool) (myPid : Int)
    (fs : Option String) (preOk bodyOk agentOk : Bool)
    (hacq : (acquire_lock alive myPid fs).1 = true) :
    (preOk = true → (run_model alive myPid preOk bodyOk fs).2 = none) ∧
    (agentOk = true →
      (run_continuation_model alive myPid agentOk fs).2 = none) := by
  constructor
  · intro hpre
    cases hb : bodyOk <;>
      simp [run_model, hacq, hpre, hb, release_lock]
  · intro hag
    simp [run_continuation_model, hacq, hag, release_lock]

/-- Witness for C2 amended at a concrete input: with no contending holder,
both entry points end with the lock file removed when their fallible
regions complete. -/
theorem lock_release_amended_witness :
    (run_model (fun _ => false) 7 true true none).2 = none ∧
    (run_continuation_model (fun _ => false) 7 true none).2 = none := by
  have h := lock_release_amended (fun _ => false) 7 none true true true
    (by decide)
  exact ⟨h.1 rfl, h.2 rfl⟩

/-! ### Retry executor (`orchestrator.py`, `with_retry`, lines 25-61)

The wrapped operation is modelled by `op : Nat → Except String α`, giving
the outcome of each attempt by attempt index (`Except.error msg` = the
attempt raised an exception whose `str` is `msg`).  The
`random.uniform(0, 1)` jitter draws are modelled by `jit : Nat → ℚ` and the
cooperative sleeps are recorded in the trace rather than performed.  The
`print` reporting is recorded as structured log events. -/

/-- The fixed non-retryable keyword list of `with_retry`. -/
def nonRetryableKeywords : List String :=
  ["invalid", "not found", "permission", "authentication"]

/-- Python `any(nr in error_str for nr in non_retryable)` applied to the
lowercased failure message. -/
def isNonRetryable (msg : String) : Bool :=
  nonRetryableKeywords.any (fun kw => containsSub kw.data (lowerL msg.data))

/-- Structured rendering of the three `print` reports inside `with_retry`:
`attemptFailed n m msg` is the retry report for failed attempt `n` of `m`
(followed by the sleep), `allFailed m msg` is the terminal report carrying
the attempt count, `nonRetryable msg` is the non-retryable report. -/
inductive LogEvent where
  | nonRetryable (msg : String)
  | attemptFailed (attemptNumber maxAttempts : Nat) (msg : String)
  | allFailed (maxAttempts : Nat) (msg : String)
  deriving DecidableEq, Repr

/-- Observable trace of one `with_retry` execution: the returned value or
re-raised exception (`Except.error none` models re-raising the initial
`last_exception = None`), the number of invocations of the operation, the
sleep durations in order, and the reports in order. -/
structure RetryTrace (α : Type) where
  result : Except (Option String) α
  invocations : Nat
  delays : List ℚ
  logs : List LogEvent

/-- Loop of `with_retry`: `remaining` counts the attempts left out of
`maxAttempts`, `attempt` is the current 0-based attempt index, and the
accumulators carry `last_exception`, the invocation count, and the reversed
delay and log lists. -/
def withRetryGo {α : Type} (op : Nat → Except String α) (base maxd : ℚ)
    (jit : Nat → ℚ) (maxAttempts : Nat) :
    Nat → Nat → Option String → Nat → List ℚ → List LogEvent → RetryTrace α
  | 0, _, lastExc, inv, delays, logs =>
    ⟨Except.error lastExc, inv, delays.reverse, logs.reverse⟩
  | r + 1, attempt, _, inv, delays, logs =>
    match op attempt with
    | Except.ok v => ⟨Except.ok v, inv + 1, delays.reverse, logs.reverse⟩
    | Except.error msg =>
      if isNonRetryable msg then
        ⟨Except.error (some msg), inv + 1, delays.reverse,
          (LogEvent.nonRetryable msg :: logs).reverse⟩
      else if attempt < maxAttempts - 1 then
        withRetryGo op base maxd jit maxAttempts r (attempt + 1) (some msg)
          (inv + 1) (min (base * 2 ^ attempt + jit attempt) maxd :: delays)
          (LogEvent.attemptFailed (attempt + 1) maxAttempts msg :: logs)
      else
        withRetryGo op base maxd jit maxAttempts r (attempt + 1) (some msg)
          (inv + 1) delays (LogEvent.allFailed maxAttempts msg :: logs)

/-- Shallow embedding of the `with_retry` wrapper applied to one call of the
wrapped coroutine. -/
def with_retry {α : Type} (op : Nat → Except String α) (maxAttempts : Nat)
    (base maxd : ℚ) (jit : Nat → ℚ) : RetryTrace α :=
  withRetryGo op base maxd jit maxAttempts maxAttempts 0 none 0 [] []

/-- C3: an operation whose first failure message matches a non-retryable
keyword (case-insensitively) is invoked exactly once; the failure is
re-raised immediately, with no sleep, for any `maxAttempts ≥ 1`. -/
theorem with_retry_nonretryable_once {α : Type} (op : Nat → Except String α)
    (maxAttempts : Nat) (base maxd : ℚ) (jit : Nat → ℚ) (msg : String)
    (h0 : op 0 = Except.error msg) (hnr : isNonRetryable msg = true)
    (hm : 1 ≤ maxAttempts) :
    with_retry op maxAttempts base maxd jit =
      ⟨Except.error (some msg), 1, [], [LogEvent.nonRetryable msg]⟩ := by
  obtain ⟨r, hr⟩ : ∃ r, maxAttempts = r + 1 :=
    ⟨maxAttempts - 1, (Nat.succ_pred_eq_of_pos hm).symm⟩
  rw [with_retry, hr]
  simp [withRetryGo, h0, hnr]

/-- Witness for C3: an operation always failing with
"authentication failed" under the source defaults (3 attempts, base 2 s,
cap 30 s) is invoked once, with no sleep. -/
theorem with_retry_nonretryable_once_witness :
    with_retry (fun _ => Except.error ("authentication failed") : Nat →
        Except String Nat) 3 2 30 (fun _ => 0) =
      ⟨Except.error (some ("authentication failed")), 1, [],
        [LogEvent.nonRetryable ("authentication failed")]⟩ :=
  with_retry_nonretryable_once _ 3 2 30 (fun _ => 0)
    ("authentication failed") rfl (by decide) (by decide)

/-- Helper for C4: if every attempt from index `attempt` to the end fails
with a retryable message, the loop re-raises the last message, counts every
attempt, and its last report is the terminal one with the attempt count. -/
theorem withRetryGo_allFail {α : Type} (op : Nat → Except String α)
    (base maxd : ℚ) (jit : Nat → ℚ) (maxAttempts : Nat) (msgs : Nat → String)
    (hfail : ∀ i, i < maxAttempts → op i = Except.error (msgs i))
    (hret : ∀ i, i < maxAttempts → isNonRetryable (msgs i) = false) :
    ∀ r attempt lastExc inv delays logs, attempt + r = maxAttempts → 1 ≤ r →
      ∃ ds rest,
        withRetryGo op base maxd jit maxAttempts r attempt lastExc inv delays
            logs =
          ⟨Except.error (some (msgs (maxAttempts - 1))), inv + r, ds,
            (LogEvent.allFailed maxAttempts (msgs (maxAttempts - 1)) ::
              rest).reverse⟩ := by
  intro r
  induction r with
  | zero => intro attempt lastExc inv delays logs _ h1; omega
  | succ r ih =>
    intro attempt lastExc inv delays logs hsum _
    have hlt : attempt < maxAttempts := by omega
    have hop := hfail attempt hlt
    have hnr := hret attempt hlt
    match r, ih with
    | 0, _ =>
      have hlast : attempt = maxAttempts - 1 := by omega
      have hcond : ¬ attempt < maxAttempts - 1 := by omega
      refine ⟨delays.reverse, logs, ?_⟩
      rw [withRetryGo, hop]
      simp only [hnr, Bool.false_eq_true, if_false, hcond]
      rw [withRetryGo]
      simp [hlast]
    | r2 + 1, ih =>
      have hcond : attempt < maxAttempts - 1 := by omega
      obtain ⟨ds, rest, hval⟩ := ih (attempt + 1) (some (msgs attempt))
        (inv + 1)
        (min (base * 2 ^ attempt + jit attempt) maxd :: delays)
        (LogEvent.attemptFailed (attempt + 1) maxAttempts (msgs attempt) ::
          logs) (by omega) (by omega)
      refine ⟨ds, rest, ?_⟩
      rw [withRetryGo, hop]
      simp only [hnr, Bool.false_eq_true, if_false, hcond, if_true]
      rw [hval]
      congr 1
      omega

/-- C4: an operation failing on every attempt with messages matching no
non-retryable keyword is invoked exactly `maxAttempts` times; the last
failure is re-raised and the terminal report is annotated with the attempt
count. -/
theorem with_retry_exhaustion {α : Type} (op : Nat → Except String α)
    (maxAttempts : Nat) (base maxd : ℚ) (jit : Nat → ℚ) (msgs : Nat → String)
    (hfail : ∀ i, i < maxAttempts → op i = Except.error (msgs i))
    (hret : ∀ i, i < maxAttempts → isNonRetryable (msgs i) = false)
    (hm : 1 ≤ maxAttempts) :
    (with_retry op maxAttempts base maxd jit).result =
      Except.error (some (msgs (maxAttempts - 1))) ∧
    (with_retry op maxAttempts base maxd jit).invocations = maxAttempts ∧
    (with_retry op maxAttempts base maxd jit).logs.getLast? =
      some (LogEvent.allFailed maxAttempts (msgs (maxAttempts - 1))) := by
  obtain ⟨ds, rest, hval⟩ := withRetryGo_allFail op base maxd jit maxAttempts
    msgs hfail hret maxAttempts 0 none 0 [] [] (by omega) hm
  rw [with_retry, hval]
  refine ⟨rfl, ?_, ?_⟩
  · show 0 + maxAttempts = maxAttempts
    omega
  · show (LogEvent.allFailed maxAttempts (msgs (maxAttempts - 1)) ::
        rest).reverse.getLast? = _
    simp only [List.reverse_cons]
    exact List.getLast?_concat _

/-- Witness for C4: an operation always failing with "boom" under
`maxAttempts = 2` is invoked twice, re-raises "boom", and the terminal
report carries the attempt count 2. -/
theorem with_retry_exhaustion_witness :
    (with_retry (fun _ => Except.error ("boom") : Nat → Except String Nat)
        2 2 30 (fun _ => 0)).result = Except.error (some ("boom")) ∧
    (with_retry (fun _ => Except.error ("boom") : Nat → Except String Nat)
        2 2 30 (fun _ => 0)).invocations = 2 ∧
    (with_retry (fun _ => Except.error ("boom") : Nat → Except String Nat)
        2 2 30 (fun _ => 0)).logs.getLast? =
      some (LogEvent.allFailed 2 ("boom")) := by
  have hnr : isNonRetryable ("boom") = false := by decide
  exact with_retry_exhaustion _ 2 2 30 (fun _ => 0) (fun _ => "boom")
    (fun _ _ => rfl) (fun _ _ => hnr) (by decide)

/-- C5: an operation failing twice with retryable messages and succeeding on
the third call is invoked exactly 3 times and returns the success value;
the sleep after failed attempt `i` is `min (base * 2 ^ i + jitter, maxd)`,
and the delay before the second attempt lies in `[base, 2 * base + 1)`
whenever the jitter draw is in `[0, 1)`, `0 ≤ base` and `base ≤ maxd`. -/
theorem with_retry_transient_then_success {α : Type}
    (op : Nat → Except String α) (maxAttempts : Nat) (base maxd : ℚ)
    (jit : Nat → ℚ) (msg0 msg1 : String) (v : α)
    (h0 : op 0 = Except.error msg0) (h1 : op 1 = Except.error msg1)
    (h2 : op 2 = Except.ok v)
    (hr0 : isNonRetryable msg0 = false) (hr1 : isNonRetryable msg1 = false)
    (hm : 3 ≤ maxAttempts)
    (hj0 : 0 ≤ jit 0) (hj0lt : jit 0 < 1)
    (hb : 0 ≤ base) (hbm : base ≤ maxd) :
    with_retry op maxAttempts base maxd jit =
      ⟨Except.ok v, 3,
        [min (base * 2 ^ 0 + jit 0) maxd, min (base * 2 ^ 1 + jit 1) maxd],
        [LogEvent.attemptFailed 1 maxAttempts msg0,
          LogEvent.attemptFailed 2 maxAttempts msg1]⟩ ∧
    base ≤ min (base * 2 ^ 0 + jit 0) maxd ∧
    min (base * 2 ^ 0 + jit 0) maxd < 2 * base + 1 := by
  obtain ⟨r, hr⟩ : ∃ r, maxAttempts = r + 3 := ⟨maxAttempts - 3, by omega⟩
  constructor
  · rw [with_retry, hr]
    rw [withRetryGo, h0]
    simp only [hr0, Bool.false_eq_true, if_false]
    have hc0 : 0 < r + 3 - 1 := by omega
    simp only [hc0, if_true]
    rw [withRetryGo, h1]
    simp only [hr1, Bool.false_eq_true, if_false]
    have hc1 : 1 < r + 3 - 1 := by omega
    simp only [hc1, if_true]
    rw [withRetryGo, h2]
    rfl
  · constructor
    · refine le_min ?_ hbm
      have : base * 2 ^ 0 = base := by ring
      rw [this]
      linarith
    · have h20 : base * 2 ^ 0 = base := by ring
      rw [h20]
      have hle : min (base + jit 0) maxd ≤ base + jit 0 := min_le_left _ _
      linarith

/-- Witness for C5: two "timeout" failures then success 42 under the source
defaults with jitter draw 1/2; here the delay before the second attempt is
`min (2 * 1 + 1/2) 30`. -/
theorem with_retry_transient_then_success_witness :
    with_retry (fun i => if i < 2 then Except.error ("timeout")
        else Except.ok 42) 3 2 30 (fun _ => 1 / 2) =
      ⟨Except.ok 42, 3,
        [min ((2 : ℚ) * 2 ^ 0 + 1 / 2) 30, min ((2 : ℚ) * 2 ^ 1 + 1 / 2) 30],
        [LogEvent.attemptFailed 1 3 ("timeout"),
          LogEvent.attemptFailed 2 3 ("timeout")]⟩ ∧
    (2 : ℚ) ≤ min ((2 : ℚ) * 2 ^ 0 + 1 / 2) 30 ∧
    min ((2 : ℚ) * 2 ^ 0 + 1 / 2) 30 < 2 * 2 + 1 :=
  with_retry_transient_then_success
    (fun i => if i < 2 then Except.error ("timeout") else Except.ok 42)
    3 2 30 (fun _ => 1 / 2) ("timeout") ("timeout") 42 rfl rfl rfl
    (by decide) (by decide) (by norm_num) (by norm_num) (by norm_num)
    (by norm_num) (by norm_num)

/-! ### Pipeline state values

The pipeline state dictionary maps string keys to JSON-like Python values.
`PState` is the in-memory dictionary, modelled as a total function to
`Option PyVal` (`none` = key absent). -/

/-- JSON-like Python values stored in the pipeline state. -/
inductive PyVal where
  | str (s : String)
  | list (xs : List PyVal)
  | dict (kvs : List (String × PyVal))

/-- The in-memory pipeline state dictionary. -/
def PState : Type :=
  String → Option PyVal

/-- Dictionary item assignment `st[k] = v`. -/
def setK (st : PState) (k : String) (v : PyVal) : PState :=
  fun k2 => if k2 = k then some v else st k2

/-- Python truthiness of `state.get(k)` results: `None`, empty strings,
empty lists and empty dicts are falsy. -/
def pyTruthy : Option PyVal → Bool
  | none => false
  | some (PyVal.str s) => s ≠ ""
  | some (PyVal.list xs) => !xs.isEmpty
  | some (PyVal.dict kvs) => !kvs.isEmpty

/-! ### Marker extraction (`markdown_parser.py`, `extract_output_marker`,
lines 193-212, and `run.py`, `AgentFirstPipeline._extract_markers`,
lines 515-565)

Every pattern in the marker table of `_extract_markers` has one of four
shapes, each a marker name followed by `:`, `\s*` and a capture group:
`(.+)`, `(\d+)`, `(yes|no)` or `(pass|fail)`.  `reSearch` implements
`re.search(pattern, text, re.MULTILINE)` for exactly these shapes: it scans
the text left to right for an occurrence of `NAME:` whose remainder admits
the greedy whitespace run plus capture group, and returns the first such
captured group.  `re.MULTILINE` only changes `^`/`$`, which none of the
patterns use. -/

/-- The four pattern shapes of the marker table. -/
inductive MarkerPattern where
  | anyText (name : String)
  | digits (name : String)
  | yesNo (name : String)
  | passFail (name : String)
  deriving DecidableEq, Repr

/-- Marker name of a pattern. -/
def patName : MarkerPattern → String
  | MarkerPattern.anyText n => n
  | MarkerPattern.digits n => n
  | MarkerPattern.yesNo n => n
  | MarkerPattern.passFail n => n

/-- Largest index `j` of a character different from `\n` in `w`, if any;
this is where the backtracking greedy `\s*` stops when everything after it
is whitespace. -/
def lastNonNewlinePos (w : List Char) : Option Nat :=
  match (w.reverse.findIdx? (fun c => c ≠ '\n')) with
  | some k => some (w.length - 1 - k)
  | none => none

/-- Match `\s*(.+)` against `s` (the text right after `NAME:`), with the
greedy, backtracking semantics of `re`: `\s*` consumes the longest
whitespace run that still leaves a character other than `\n` for `(.+)`,
and `(.+)` then captures greedily up to the next newline or the end. -/
def tryCaptureAnyText (s : List Char) : Option (List Char) :=
  let w := s.takeWhile isPySpace
  let r := s.drop w.length
  match r with
  | _ :: _ => some (r.takeWhile (fun c => c ≠ '\n'))
  | [] =>
    match lastNonNewlinePos w with
    | some j => some ((w.drop j).takeWhile (fun c => c ≠ '\n'))
    | none => none

/-- Match the remainder of one pattern against the text right after
`NAME:`; returns the captured group.  For `(\d+)`, `(yes|no)` and
`(pass|fail)` the capture must start at the first non-whitespace character,
because no whitespace character can start the group. -/
def tailMatch (pat : MarkerPattern) (s : List Char) : Option (List Char) :=
  match pat with
  | MarkerPattern.anyText _ => tryCaptureAnyText s
  | MarkerPattern.digits _ =>
    let r := s.dropWhile isPySpace
    match r with
    | c :: _ => if c.isDigit then some (r.takeWhile Char.isDigit) else none
    | [] => none
  | MarkerPattern.yesNo _ =>
    let r := s.dropWhile isPySpace
    if startsWithL ("yes").data r then some (("yes").data)
    else if startsWithL ("no").data r then some (("no").data)
    else none
  | MarkerPattern.passFail _ =>
    let r := s.dropWhile isPySpace
    if startsWithL ("pass").data r then some (("pass").data)
    else if startsWithL ("fail").data r then some (("fail").data)
    else none

/-- Scan the text left to right for the first position where the pattern
matches, as `re.search` does, and return the captured group of that first
match. -/
def reSearchGo (pat : MarkerPattern) (mark : List Char) :
    List Char → Option (List Char)
  | [] => none
  | c :: rest =>
    if startsWithL mark (c :: rest) then
      match tailMatch pat ((c :: rest).drop mark.length) with
      | some cap => some cap
      | none => reSearchGo pat mark rest
    else
      reSearchGo pat mark rest

/-- Shallow embedding of `extract_output_marker(text, pattern)` for the
marker-table pattern shapes: `re.search` for the first match, then
`.strip()` of its captured group (`none` = no match, Python `None`). -/
def extract_output_marker (text : String) (pat : MarkerPattern) :
    Option String :=
  match reSearchGo pat ((patName pat).data ++ [':']) text.data with
  | some cap => some ⟨pyStripL cap⟩
  | none => none

/-- The fixed, ordered marker table of `_extract_markers`. -/
def markers : List (String × MarkerPattern) :=
  [("tests_file", MarkerPattern.anyText ("TESTS_FILE")),
   ("plan_file", MarkerPattern.anyText ("PLAN_FILE")),
   ("branch", MarkerPattern.anyText ("BRANCH")),
   ("base_commit", MarkerPattern.anyText ("BASE_COMMIT")),
   ("metrics_file", MarkerPattern.anyText ("REPORT_FILE")),
   ("architecture_map", MarkerPattern.anyText ("ARCHITECTURE_MAP")),
   ("style_system", MarkerPattern.anyText ("STYLE_SYSTEM")),
   ("tailwind_config", MarkerPattern.anyText ("TAILWIND_CONFIG")),
   ("bugfinder_report", MarkerPattern.anyText ("BUGFINDER_REPORT")),
   ("critical_issues", MarkerPattern.digits ("CRITICAL_ISSUES")),
   ("high_priority", MarkerPattern.digits ("HIGH_PRIORITY")),
   ("bugfixer_report", MarkerPattern.anyText ("BUGFIXER_REPORT")),
   ("issues_fixed", MarkerPattern.digits ("ISSUES_FIXED")),
   ("issues_skipped", MarkerPattern.digits ("ISSUES_SKIPPED")),
   ("all_critical_fixed", MarkerPattern.yesNo ("ALL_CRITICAL_FIXED")),
   ("security_issues", MarkerPattern.digits ("SECURITY_ISSUES")),
   ("type_errors", MarkerPattern.digits ("TYPE_ERRORS")),
   ("error_handling_issues", MarkerPattern.digits ("ERROR_HANDLING_ISSUES")),
   ("lint_errors", MarkerPattern.digits ("LINT_ERRORS")),
   ("codebase_context", MarkerPattern.anyText ("CODEBASE_CONTEXT")),
   ("documentation_added", MarkerPattern.anyText ("DOCUMENTATION_ADDED")),
   ("files_documented", MarkerPattern.digits ("FILES_DOCUMENTED")),
   ("infra_config", MarkerPattern.anyText ("INFRA_CONFIG")),
   ("compliance_report", MarkerPattern.anyText ("COMPLIANCE_REPORT")),
   ("compliance_validation", MarkerPattern.passFail ("COMPLIANCE_VALIDATION")),
   ("structure_report", MarkerPattern.anyText ("STRUCTURE_REPORT")),
   ("structure_validation", MarkerPattern.passFail ("STRUCTURE_VALIDATION"))]

/-- The stripped captured value of one marker on a text when that value is
truthy (Python `if value:`): `none` when the pattern does not match or the
stripped capture is empty. -/
def truthyVal (text : String) (pat : MarkerPattern) : Option String :=
  match extract_output_marker text pat with
  | some v => if v = "" then none else some v
  | none => none

/-- One iteration of the `_extract_markers` loop body. -/
def extractStep (text : String) (acc : PState × Bool)
    (kp : String × MarkerPattern) : PState × Bool :=
  match extract_output_marker text kp.2 with
  | some value =>
    if value ≠ "" then (setK acc.1 kp.1 (PyVal.str value), true) else acc
  | none => acc

/-- Shallow embedding of `AgentFirstPipeline._extract_markers`: fold the
marker table over the state; the boolean is `markers_found`, and the caller
persists the state file exactly when it is `true`. -/
def extract_markers (text : String) (st : PState) : PState × Bool :=
  markers.foldl (extractStep text) (st, false)

/-- The empty pipeline state dictionary. -/
def emptyPState : PState :=
  fun _ => none

/-- The loop body, rephrased through `truthyVal`: a truthy stripped capture
stores the value and sets `markers_found`; anything else leaves the
accumulator alone. -/
theorem extractStep_truthy (text : String) (acc : PState × Bool)
    (kp : String × MarkerPattern) :
    extractStep text acc kp =
      match truthyVal text kp.2 with
      | some v => (setK acc.1 kp.1 (PyVal.str v), true)
      | none => acc := by
  rw [extractStep, truthyVal]
  match extract_output_marker text kp.2 with
  | some v =>
    by_cases hv : v = "" <;> simp [hv]
  | none => rfl

/-- Keys for which no table entry extracts a truthy value are untouched by
the extraction fold. -/
theorem foldl_extract_frame (text : String) (k : String) :
    ∀ (tab : List (String × MarkerPattern)) (st : PState) (b : Bool),
      (∀ e ∈ tab, e.1 = k → truthyVal text e.2 = none) →
      (tab.foldl (extractStep text) (st, b)).1 k = st k := by
  intro tab
  induction tab with
  | nil => intro st b _; rfl
  | cons e tab ih =>
    intro st b h
    rw [List.foldl_cons, extractStep_truthy]
    match ht : truthyVal text e.2 with
    | none =>
      exact ih st b (fun e2 he2 => h e2 (List.mem_cons_of_mem e he2))
    | some v =>
      have hek : e.1 ≠ k := by
        intro hk
        rw [h e (List.mem_cons_self e tab) hk] at ht
        cases ht
      have := ih (setK st e.1 (PyVal.str v)) true
        (fun e2 he2 => h e2 (List.mem_cons_of_mem e he2))
      rw [this]
      show (if k = e.1 then some (PyVal.str v) else st k) = st k
      rw [if_neg (fun h2 => hek h2.symm)]

/-- If every table entry keyed `k` extracts the truthy value `v` and at
least one such entry exists, the extraction fold stores `v` under `k`. -/
theorem foldl_extract_hit (text : String) (k v : String) :
    ∀ (tab : List (String × MarkerPattern)) (st : PState) (b : Bool),
      (∀ e ∈ tab, e.1 = k → truthyVal text e.2 = some v) →
      (∃ e ∈ tab, e.1 = k) →
      (tab.foldl (extractStep text) (st, b)).1 k = some (PyVal.str v) := by
  intro tab
  induction tab with
  | nil =>
    intro st b _ hex
    obtain ⟨e, he, _⟩ := hex
    cases he
  | cons e tab ih =>
    intro st b h hex
    rw [List.foldl_cons, extractStep_truthy]
    by_cases hek : e.1 = k
    · rw [h e (List.mem_cons_self e tab) hek]
      by_cases htail : ∃ e2 ∈ tab, e2.1 = k
      · exact ih (setK st e.1 (PyVal.str v)) true
          (fun e2 he2 => h e2 (List.mem_cons_of_mem e he2)) htail
      · have hnone : ∀ e2 ∈ tab, e2.1 = k → truthyVal text e2.2 = none := by
          intro e2 he2 hk2
          exact absurd ⟨e2, he2, hk2⟩ htail
        rw [foldl_extract_frame text k tab _ _ hnone]
        show (if k = e.1 then some (PyVal.str v) else st k) =
          some (PyVal.str v)
        rw [if_pos hek.symm]
    · have htail : ∃ e2 ∈ tab, e2.1 = k := by
        obtain ⟨e2, he2, hk2⟩ := hex
        rcases List.mem_cons.mp he2 with heq | hmem
        · exact absurd (heq ▸ hk2) hek
        · exact ⟨e2, hmem, hk2⟩
      have hh : ∀ e2 ∈ tab, e2.1 = k → truthyVal text e2.2 = some v :=
        fun e2 he2 => h e2 (List.mem_cons_of_mem e he2)
      match ht : truthyVal text e.2 with
      | none => exact ih st b hh htail
      | some w => exact ih (setK st e.1 (PyVal.str w)) true hh htail

/-- The `markers_found` flag produced by the extraction fold is the initial
flag or-ed with whether any table entry extracts a truthy value. -/
theorem foldl_extract_found (text : String) :
    ∀ (tab : List (String × MarkerPattern)) (st : PState) (b : Bool),
      (tab.foldl (extractStep text) (st, b)).2 =
        (b || tab.any (fun e => (truthyVal text e.2).isSome)) := by
  intro tab
  induction tab with
  | nil => intro st b; simp
  | cons e tab ih =>
    intro st b
    rw [List.foldl_cons, extractStep_truthy]
    match ht : truthyVal text e.2 with
    | none => rw [ih]; simp [ht]
    | some v => rw [ih]; simp [ht]

/-- C7: on the scenario text, extraction stores exactly
`tests_file = "specs/x.json"` and `branch = "feature/y"`, leaves every
other key of the state untouched, and reports that markers were found
(so the state is persisted). -/
theorem extract_markers_scenario (st : PState) :
    (extract_markers
        ("Step done\nTESTS_FILE: specs/x.json\nBRANCH: feature/y\n") st).1
      ("tests_file") = some (PyVal.str ("specs/x.json")) ∧
    (extract_markers
        ("Step done\nTESTS_FILE: specs/x.json\nBRANCH: feature/y\n") st).1
      ("branch") = some (PyVal.str ("feature/y")) ∧
    (∀ k, k ≠ "tests_file" → k ≠ "branch" →
      (extract_markers
          ("Step done\nTESTS_FILE: specs/x.json\nBRANCH: feature/y\n") st).1
        k = st k) ∧
    (extract_markers
        ("Step done\nTESTS_FILE: specs/x.json\nBRANCH: feature/y\n") st).2 =
      true := by
  have hall : ∀ e ∈ markers, e.1 ≠ "tests_file" → e.1 ≠ "branch" →
      truthyVal
        ("Step done\nTESTS_FILE: specs/x.json\nBRANCH: feature/y\n") e.2 =
        none := by decide
  refine ⟨?_, ?_, ?_, ?_⟩
  · exact foldl_extract_hit _ _ _ markers st false (by decide) (by decide)
  · exact foldl_extract_hit _ _ _ markers st false (by decide) (by decide)
  · intro k hk1 hk2
    refine foldl_extract_frame _ k markers st false ?_
    intro e he hek
    exact hall e he (hek ▸ hk1) (hek ▸ hk2)
  · rw [extract_markers, foldl_extract_found]
    decide

/-- Witness for C7 at the empty state: the two keys are stored and an
untouched third key (for example `plan_file`) keeps its prior value. -/
theorem extract_markers_scenario_witness :
    (extract_markers
        ("Step done\nTESTS_FILE: specs/x.json\nBRANCH: feature/y\n")
        emptyPState).1 ("tests_file") = some (PyVal.str ("specs/x.json")) ∧
    (extract_markers
        ("Step done\nTESTS_FILE: specs/x.json\nBRANCH: feature/y\n")
        emptyPState).1 ("plan_file") = emptyPState ("plan_file") := by
  refine ⟨(extract_markers_scenario emptyPState).1, ?_⟩
  exact (extract_markers_scenario emptyPState).2.2.1 ("plan_file") (by decide)
    (by decide)

/-- C9: when no marker pattern extracts a truthy (nonempty) value from the
text, extraction returns the state unchanged with `markers_found = false`,
so no state-file write happens; and in general the persist flag is true
exactly when some table entry extracts a truthy value. -/
theorem extract_markers_no_write (text : String) (st : PState) :
    ((∀ e ∈ markers, truthyVal text e.2 = none) →
      extract_markers text st = (st, false)) ∧
    ((extract_markers text st).2 = true ↔
      ∃ e ∈ markers, truthyVal text e.2 ≠ none) := by
  constructor
  · intro h
    have h1 : (extract_markers text st).1 = st := by
      funext k
      exact foldl_extract_frame text k markers st false
        (fun e he _ => h e he)
    have h2 : (extract_markers text st).2 = false := by
      rw [extract_markers, foldl_extract_found]
      simp only [Bool.false_or]
      rw [List.any_eq_false]
      intro e he
      simp [h e he]
    calc extract_markers text st
        = ((extract_markers text st).1, (extract_markers text st).2) := rfl
      _ = (st, false) := by rw [h1, h2]
  · rw [extract_markers, foldl_extract_found]
    simp only [Bool.false_or, List.any_eq_true]
    constructor
    · rintro ⟨e, he, hsome⟩
      refine ⟨e, he, ?_⟩
      intro hnone
      rw [hnone] at hsome
      cases hsome
    · rintro ⟨e, he, hne⟩
      refine ⟨e, he, ?_⟩
      cases ht : truthyVal text e.2 with
      | none => exact absurd ht hne
      | some v => simp [ht]

/-- Witness for C9: a text with no marker leaves the empty state unchanged
and does not persist. -/
theorem extract_markers_no_write_witness :
    extract_markers ("No markers here.") emptyPState =
      (emptyPState, false) :=
  (extract_markers_no_write ("No markers here.") emptyPState).1 (by decide)

/-! ### Rollback tool (`run.py`, `rollback_tool`, lines 420-473)

The tool response is a text plus the `is_error` flag.  The external
`git reset --hard` subprocess is modelled by `gitOk` (return code 0) and
`gitErr` (its stderr); the timestamp `datetime.now().isoformat()` by `now`.
The embedding returns the response, the resulting state dictionary, and
whether `_persist_state` was called. -/

/-- A tool response: its text content and the `is_error` flag. -/
structure ToolResult where
  text : String
  isError : Bool
  deriving DecidableEq, Repr

/-- Shallow embedding of `rollback_tool`.  The confirmation token must be
exactly "yes"; a falsy `base_commit` aborts; a failing git reset aborts;
otherwise the whole state is replaced by the minimal snapshot and
persisted. -/
def rollback_tool (st : PState) (confirm : Option String) (gitOk : Bool)
    (gitErr : String) (now : String) : ToolResult × PState × Bool :=
  if confirm ≠ some ("yes") then
    (⟨"Rollback requires confirm=yes to proceed.", true⟩, st, false)
  else
    let base_commit := st ("base_commit")
    if pyTruthy base_commit = false then
      (⟨"No base_commit in state - cannot rollback.", true⟩, st, false)
    else if gitOk = false then
      (⟨"Rollback failed: " ++ gitErr, true⟩, st, false)
    else
      let old_task := (st ("task")).getD (PyVal.str (""))
      let st2 : PState := fun k =>
        if k = "base_commit" then base_commit
        else if k = "task" then some old_task
        else if k = "issues_found" then some (PyVal.list [])
        else if k = "rolled_back_at" then some (PyVal.str now)
        else if k = "_meta" then some (PyVal.dict [])
        else none
      (⟨"Rolled back. Pipeline state cleared.", false⟩, st2, true)

/-- C8: rollback on a state with no recorded `base_commit` fails with an
error response and leaves the state untouched and unpersisted, whatever the
confirmation token; and with any confirmation token other than exactly
"yes" (including an absent one) it fails the same way on any state. -/
theorem rollback_guard (st : PState) (confirm : Option String)
    (gitOk : Bool) (gitErr : String) (now : String) :
    (st ("base_commit") = none →
      (rollback_tool st confirm gitOk gitErr now).1.isError = true ∧
      (rollback_tool st confirm gitOk gitErr now).2.1 = st ∧
      (rollback_tool st confirm gitOk gitErr now).2.2 = false) ∧
    (confirm ≠ some ("yes") →
      (rollback_tool st confirm gitOk gitErr now).1.isError = true ∧
      (rollback_tool st confirm gitOk gitErr now).2.1 = st ∧
      (rollback_tool st confirm gitOk gitErr now).2.2 = false) := by
  constructor
  · intro hbc
    by_cases hc : confirm = some ("yes")
    · have hval : rollback_tool st confirm gitOk gitErr now =
          (⟨"No base_commit in state - cannot rollback.", true⟩, st,
            false) := by
        rw [rollback_tool]
        simp [hc, hbc, pyTruthy]
      rw [hval]
      exact ⟨rfl, rfl, rfl⟩
    · have hval : rollback_tool st confirm gitOk gitErr now =
          (⟨"Rollback requires confirm=yes to proceed.", true⟩, st,
            false) := by
        rw [rollback_tool]
        simp [hc]
      rw [hval]
      exact ⟨rfl, rfl, rfl⟩
  · intro hc
    have hval : rollback_tool st confirm gitOk gitErr now =
        (⟨"Rollback requires confirm=yes to proceed.", true⟩, st,
          false) := by
      rw [rollback_tool]
      simp [hc]
    rw [hval]
    exact ⟨rfl, rfl, rfl⟩

/-- Witness for C8: on the empty state, rollback with the correct token
"yes" still fails and changes nothing. -/
theorem rollback_guard_witness :
    (rollback_tool emptyPState (some ("yes")) true ("") ("t")).1.isError =
      true ∧
    (rollback_tool emptyPState (some ("yes")) true ("") ("t")).2.1 =
      emptyPState ∧
    (rollback_tool emptyPState (some ("yes")) true ("") ("t")).2.2 =
      false :=
  (rollback_guard emptyPState (some ("yes")) true ("") ("t")).1 rfl

/-! ### Agent path validation and the agent-running tools (`run.py`,
`AgentFirstPipeline._validate_agent_path` lines 116-138, `run_agent_tool`
lines 151-197, `run_agents_parallel_tool` lines 204-274)

The discovered agent set is the parameter `validAgents`
(`self.valid_agents`), the filesystem existence check is `fileExists`.
A single agent execution outcome is `agentResult`; the parallel variant
receives one outcome per input via `agentResults`.  Each embedding returns
the tool response, the resulting marker state, whether any persist
happened, and how many times `orch.run_agent` was invoked. -/

/-- Python `p[7:-3]`, the agent name inside `agents/<name>.md`. -/
def agentNameOf (p : String) : String :=
  ⟨(p.data.drop 7).take (p.data.length - 10)⟩

/-- Does `cs` end with `suf`?  Mirrors Python `str.endswith`. -/
def endsWithL (suf cs : List Char) : Bool :=
  startsWithL suf.reverse cs.reverse

/-- Shallow embedding of `AgentFirstPipeline._validate_agent_path`. -/
def validate_agent_path (validAgents : List String)
    (fileExists : String → Bool) (agent_path : String) : Bool × String :=
  if !(startsWithL ("agents/").data agent_path.data &&
      endsWithL (".md").data agent_path.data) then
    (false, "Agent path must be agents/<name>.md, got: " ++ agent_path)
  else
    let agent_name := agentNameOf agent_path
    if !(validAgents.contains agent_name) then
      (false, "Unknown agent " ++ agent_name)
    else if !(fileExists agent_path) then
      (false, "Agent file not found: " ++ agent_path)
    else
      (true, "")

/-- Python truthiness of an optional string argument
(`args.get(...)` followed by `if not x`). -/
def pyTruthyStr : Option String → Bool
  | none => false
  | some s => s ≠ ""

/-- Shallow embedding of `run_agent_tool`: require both arguments truthy,
validate the path, then run the agent (whose raise is caught by the outer
handler) and extract markers from its output.  Returns the response, the
final state, whether the state was persisted, and the number of
`orch.run_agent` invocations. -/
def run_agent_tool (validAgents : List String) (fileExists : String → Bool)
    (agentResult : Except String String) (st : PState)
    (agent_path agent_input : Option String) :
    ToolResult × PState × Bool × Nat :=
  if !pyTruthyStr agent_path || !pyTruthyStr agent_input then
    (⟨"Error: agent_path and agent_input are required", true⟩, st, false, 0)
  else
    let path := agent_path.getD ("")
    let val := validate_agent_path validAgents fileExists path
    if !val.1 then
      (⟨"Invalid agent path: " ++ val.2, true⟩, st, false, 0)
    else
      match agentResult with
      | Except.error e => (⟨"Error: " ++ e, true⟩, st, false, 1)
      | Except.ok result =>
        let ex := extract_markers result st
        (⟨"Agent completed successfully.", false⟩, ex.1, ex.2, 1)

/-- Python truthiness of the `inputs` list argument
(`args.get("inputs", [])` followed by `if not inputs`). -/
def pyTruthyList (o : Option (List String)) : Bool :=
  !(o.getD []).isEmpty

/-- Shallow embedding of `run_agents_parallel_tool`: same argument and path
checks, then the 10-agent cap, then one `orch.run_agent` per input
(`asyncio.gather` with `return_exceptions=True`), extracting markers from
every non-exception result in order. -/
def run_agents_parallel_tool (validAgents : List String)
    (fileExists : String → Bool) (agentResults : Nat → Except String String)
    (st : PState) (agent_path : Option String)
    (inputs : Option (List String)) : ToolResult × PState × Bool × Nat :=
  let inputsL := inputs.getD []
  if !pyTruthyStr agent_path || !pyTruthyList inputs then
    (⟨"Error: agent_path and inputs are required", true⟩, st, false, 0)
  else
    let path := agent_path.getD ("")
    let val := validate_agent_path validAgents fileExists path
    if !val.1 then
      (⟨"Invalid agent path: " ++ val.2, true⟩, st, false, 0)
    else if inputsL.length > 10 then
      (⟨"Error: Too many parallel agents. Maximum is 10.", true⟩, st,
        false, 0)
    else
      let results := (List.range inputsL.length).map agentResults
      let folded := results.foldl
        (fun (acc : PState × Bool) r =>
          match r with
          | Except.ok text =>
            let ex := extract_markers text acc.1
            (ex.1, acc.2 || ex.2)
          | Except.error _ => acc) (st, false)
      (⟨"Parallel execution complete.", false⟩, folded.1, folded.2,
        inputsL.length)

/-- C10: whenever the supplied agent path is absent, empty, or fails any of
the validation conditions (form `agents/<name>.md`, membership of the
discovered agent set, file existence), both `run_agent_tool` and
`run_agents_parallel_tool` return an error response, invoke no agent,
extract no marker, and leave the state unchanged and unpersisted. -/
theorem invalid_agent_path_no_effect (validAgents : List String)
    (fileExists : String → Bool) (agentResult : Except String String)
    (agentResults : Nat → Except String String) (st : PState)
    (agent_path agent_input : Option String)
    (inputs : Option (List String))
    (hbad : ∀ p, agent_path = some p → p ≠ "" →
      ¬(startsWithL ("agents/").data p.data = true ∧
        endsWithL (".md").data p.data = true ∧
        validAgents.contains (agentNameOf p) = true ∧
        fileExists p = true)) :
    (run_agent_tool validAgents fileExists agentResult st agent_path
        agent_input).1.isError = true ∧
    (run_agent_tool validAgents fileExists agentResult st agent_path
        agent_input).2 = (st, false, 0) ∧
    (run_agents_parallel_tool validAgents fileExists agentResults st
        agent_path inputs).1.isError = true ∧
    (run_agents_parallel_tool validAgents fileExists agentResults st
        agent_path inputs).2 = (st, false, 0) := by
  have hv : ∀ p, agent_path = some p → p ≠ "" →
      (validate_agent_path validAgents fileExists p).1 = false := by
    intro p hp hne
    have hb := hbad p hp hne
    rw [validate_agent_path]
    cases h1 : (startsWithL ("agents/").data p.data &&
        endsWithL (".md").data p.data) with
    | false => simp [h1]
    | true =>
      obtain ⟨h1a, h1b⟩ := Bool.and_eq_true_iff.mp h1
      cases h2 : validAgents.contains (agentNameOf p) with
      | false =>
        have hmem : agentNameOf p ∉ validAgents := by simpa using h2
        simp [h1, hmem]
      | true =>
        have hmem : agentNameOf p ∈ validAgents := by simpa using h2
        cases h3 : fileExists p with
        | false => simp [h1, hmem, h3]
        | true => exact absurd ⟨h1a, h1b, h2, h3⟩ hb
  match hp : agent_path with
  | none =>
    refine ⟨?_, ?_, ?_, ?_⟩ <;>
      simp [run_agent_tool, run_agents_parallel_tool, pyTruthyStr]
  | some p =>
    by_cases hne : p = ""
    · subst hne
      refine ⟨?_, ?_, ?_, ?_⟩ <;>
        simp [run_agent_tool, run_agents_parallel_tool, pyTruthyStr]
    · have hval := hv p rfl hne
      have htr : pyTruthyStr (some p) = true := by
        simp [pyTruthyStr, hne]
      refine ⟨?_, ?_, ?_, ?_⟩
      · cases hin : pyTruthyStr agent_input with
        | false => simp [run_agent_tool, htr, hin]
        | true => simp [run_agent_tool, htr, hin, hval]
      · cases hin : pyTruthyStr agent_input with
        | false => simp [run_agent_tool, htr, hin]
        | true => simp [run_agent_tool, htr, hin, hval]
      · cases hin : pyTruthyList inputs with
        | false => simp [run_agents_parallel_tool, htr, hin]
        | true => simp [run_agents_parallel_tool, htr, hin, hval]
      · cases hin : pyTruthyList inputs with
        | false => simp [run_agents_parallel_tool, htr, hin]
        | true => simp [run_agents_parallel_tool, htr, hin, hval]

/-- Witness for C10: a path naming an undiscovered agent is rejected by
both tools without running anything. -/
theorem invalid_agent_path_no_effect_witness :
    (run_agent_tool (["git-setup"]) (fun _ => true)
        (Except.ok ("BRANCH: b\n")) emptyPState (some ("agents/evil.md"))
        (some ("task"))).2 = (emptyPState, false, 0) ∧
    (run_agents_parallel_tool (["git-setup"]) (fun _ => true)
        (fun _ => Except.ok ("BRANCH: b\n")) emptyPState
        (some ("agents/evil.md")) (some (["a", "b"]))).2 =
      (emptyPState, false, 0) := by
  have h := invalid_agent_path_no_effect (["git-setup"]) (fun _ => true)
    (Except.ok ("BRANCH: b\n")) (fun _ => Except.ok ("BRANCH: b\n"))
    emptyPState (some ("agents/evil.md")) (some ("task"))
    (some (["a", "b"]))
    (by
      intro p hp hne
      cases hp
      decide)
  exact ⟨h.2.1, h.2.2.2⟩

/-! ### Port allocator (`test_port_assignment.py`, `assign_service_port`
and `is_port_available`, lines 14-74)

`hashValue` models `int(hashlib.sha256((project_path + ":" +
service_name).encode()).hexdigest(), 16)`, a pure function of the
(projectPath, serviceName) inputs.  The bind test `is_port_available` is
the availability-snapshot predicate `avail`.  The `random.randint(10000,
20000)` draws of the ephemeral fallback are modelled by `rand : Nat → Nat`
giving the successive draws; they are the only non-input, non-availability
dependence of the function. -/

/-- Linear probe of step 3: offsets from `offset` while fuel remains,
stopping (`break`) past `base_port + range_size + 100`. -/
def probeGo (preferred bound : Nat) (avail : Nat → Bool) :
    Nat → Nat → Option Nat
  | _, 0 => none
  | offset, fuel + 1 =>
    let candidate := preferred + offset
    if candidate > bound then none
    else if avail candidate then some candidate
    else probeGo preferred bound avail (offset + 1) fuel

/-- Ephemeral fallback of step 4: up to 10 random draws, returning the
first available one. -/
def ephemeralGo (avail : Nat → Bool) (rand : Nat → Nat) :
    Nat → Nat → Option Nat
  | _, 0 => none
  | i, fuel + 1 =>
    let candidate := rand i
    if avail candidate then some candidate
    else ephemeralGo avail rand (i + 1) fuel

/-- Shallow embedding of `assign_service_port`: hash-derived preferred
port, then a 99-step linear probe, then 10 random ephemeral draws, then an
exhaustion error. -/
def assign_service_port (service_name : String) (hashValue base_port : Nat)
    (avail : Nat → Bool) (rand : Nat → Nat) : Except String Nat :=
  let range_size := 256
  let preferred_port := base_port + hashValue % range_size
  if avail preferred_port then Except.ok preferred_port
  else
    match probeGo preferred_port (base_port + range_size + 100) avail 1
        99 with
    | some candidate => Except.ok candidate
    | none =>
      match ephemeralGo avail rand 0 10 with
      | some candidate => Except.ok candidate
      | none =>
        Except.error ("Unable to find available port for " ++ service_name)

/-- The deterministic part of the allocation (steps 1-3): the preferred
port if available, else the result of the linear probe. -/
def deterministicScan (hashValue base_port : Nat) (avail : Nat → Bool) :
    Option Nat :=
  let range_size := 256
  let preferred_port := base_port + hashValue % range_size
  if avail preferred_port then some preferred_port
  else probeGo preferred_port (base_port + range_size + 100) avail 1 99

/-- C6 counterexample: under one fixed availability snapshot (only ports
15000 and 16000 available) and fixed inputs, two calls that differ only in
the random ephemeral draws return different ports, so the allocation is
not a function of the inputs and the availability predicate on the
ephemeral fallback path. -/
theorem assign_port_determinism_cex :
    assign_service_port ("postgres") 0 5400
        (fun p => p == 15000 || p == 16000) (fun _ => 15000) =
      Except.ok 15000 ∧
    assign_service_port ("postgres") 0 5400
        (fun p => p == 15000 || p == 16000) (fun _ => 16000) =
      Except.ok 16000 ∧
    assign_service_port ("postgres") 0 5400
        (fun p => p == 15000 || p == 16000) (fun _ => 15000) ≠
      assign_service_port ("postgres") 0 5400
        (fun p => p == 15000 || p == 16000) (fun _ => 16000) := by
  refine ⟨rfl, rfl, ?_⟩
  intro h
  rw [show assign_service_port ("postgres") 0 5400
      (fun p => p == 15000 || p == 16000) (fun _ => 15000) =
      Except.ok 15000 from rfl] at h
  rw [show assign_service_port ("postgres") 0 5400
      (fun p => p == 15000 || p == 16000) (fun _ => 16000) =
      Except.ok 16000 from rfl] at h
  simp at h

/-- C6 amended: whenever the deterministic part of the allocation (the
preferred-port check or the linear probe) yields a port under the given
availability snapshot, the allocation returns that port regardless of the
random stream, so two successive calls under the same snapshot agree;
only the ephemeral fallback path depends on the random draws. -/
theorem assign_port_deterministic_on_scan (service_name : String)
    (hashValue base_port : Nat) (avail : Nat → Bool)
    (rand1 rand2 : Nat → Nat) (p : Nat)
    (h : deterministicScan hashValue base_port avail = some p) :
    assign_service_port service_name hashValue base_port avail rand1 =
      Except.ok p ∧
    assign_service_port service_name hashValue base_port avail rand2 =
      Except.ok p := by
  simp only [deterministicScan] at h
  have hgoal : ∀ r : Nat → Nat,
      assign_service_port service_name hashValue base_port avail r =
        Except.ok p := by
    intro r
    simp only [assign_service_port]
    cases ha : avail (base_port + hashValue % 256) with
    | true =>
      simp only [ha, if_true] at h ⊢
      cases h
      rfl
    | false =>
      simp only [ha, Bool.false_eq_true, if_false] at h ⊢
      rw [h]
  exact ⟨hgoal rand1, hgoal rand2⟩

/-- Witness for C6 amended: with every port available, both calls return
the preferred port 5400. -/
theorem assign_port_deterministic_on_scan_witness :
    deterministicScan 0 5400 (fun _ => true) = some 5400 ∧
    assign_service_port ("postgres") 0 5400 (fun _ => true) (fun _ => 0) =
      Except.ok 5400 ∧
    assign_service_port ("postgres") 0 5400 (fun _ => true) (fun _ => 1) =
      Except.ok 5400 := by
  have h := assign_port_deterministic_on_scan ("postgres") 0 5400
    (fun _ => true) (fun _ => 0) (fun _ => 1) 5400 rfl
  exact ⟨rfl, h.1, h.2⟩

end Spec2Proof
